import Mathlib

/-!
# Verification of the pull-request triage engine

A shallow embedding of `assign-pull-requests.py` (the triage decision
engine for pull requests against a package-repository tree), together
with proofs settling the specification claims.

External collaborators (the GitHub client, the Bugzilla client, the
filesystem and HTTP transports) are modelled as oracle functions carried
in the snapshot; everything the engine itself computes is embedded
faithfully from the source.  Fallible code paths (Python exceptions)
are modelled with `Option`/`Except`.
-/

namespace AssignPR

/-!
## String primitives

Structural (kernel-computable) implementations of the Python string
operations the engine uses, over the character list of a `String`.
-/

/-- Prefix test on character lists. -/
def listIsPfx : List Char → List Char → Bool
  | [], _ => true
  | _ :: _, [] => false
  | a :: as, b :: bs => a = b && listIsPfx as bs

/-- Python `s.startswith(pre)`. -/
def pyStarts (s pre : String) : Bool :=
  listIsPfx pre.data s.data

/-- Python `s.endswith(suf)`. -/
def pyEnds (s suf : String) : Bool :=
  decide (s.data.drop (s.data.length - suf.data.length) = suf.data)

/-- Python `s[:-n]` for `0 < n ≤ len(s)`: drop the last `n`
characters. -/
def pyDropRight (s : String) (n : Nat) : String :=
  ⟨s.data.take (s.data.length - n)⟩

/-- Python `s[n:]`. -/
def pyDrop (s : String) (n : Nat) : String :=
  ⟨s.data.drop n⟩

/-- ASCII lowercasing of one character. -/
def lowerChar (c : Char) : Char :=
  if 'A' ≤ c ∧ c ≤ 'Z' then Char.ofNat (c.toNat + 32) else c

/-- Python `s.lower()` (ASCII range; all engine inputs are ASCII). -/
def pyLower (s : String) : String :=
  ⟨s.data.map lowerChar⟩

/-- Python whitespace (`str.strip` default set, ASCII range). -/
def isWs (c : Char) : Bool :=
  c = ' ' || c = '\t' || c = '\n' || c = '\r' || c = '\x0b' || c = '\x0c'

/-- Python `s.strip()`. -/
def pyStrip (s : String) : String :=
  ⟨((s.data.dropWhile isWs).reverse.dropWhile isWs).reverse⟩

/-- Python `s.replace(c, rep)` for a one-character pattern. -/
def pyReplace1 (s : String) (c : Char) (rep : String) : String :=
  ⟨s.data.foldr (fun x acc => if x = c then rep.data ++ acc else x :: acc) []⟩

/-- Python `c in s` for a one-character needle. -/
def pyHasChar (s : String) (c : Char) : Bool :=
  s.data.contains c

/-- Occurrence test for a character-list pattern. -/
def containsList (pat : List Char) : List Char → Bool
  | [] => pat.isEmpty
  | c :: rest => listIsPfx pat (c :: rest) || containsList pat rest

/-- Substring test, Python `pat in s`. -/
def containsSub (s pat : String) : Bool :=
  containsList pat.data s.data

/-- Python `s.split('/')`: split on every occurrence of the
separator; never empty (the empty string yields `[""]`). -/
def splitChar (c : Char) (l : List Char) : List (List Char) :=
  l.foldr
    (fun x acc =>
      match acc with
      | [] => [[x]]
      | h :: t => if x = c then [] :: h :: t else (x :: h) :: t)
    [[]]

/-- `f.filename.split('/')` as strings. -/
def splitSlash (s : String) : List String :=
  (splitChar '/' s.data).map (fun l => ⟨l⟩)

/-- Everything after the first occurrence of `:`
(`l.split(':', 1)[1]`, for a line known to contain a colon). -/
def afterColonData : List Char → List Char
  | [] => []
  | c :: rest => if c = ':' then rest else afterColonData rest

/-- Python `'%s' % x` applied to an optional string: `None` renders as
the literal `"None"`. -/
def pyStr : Option String → String
  | none => "None"
  | some s => s

/-- Python truthiness of `dict.get(k)`: `None` and the empty string are
falsy. -/
def truthyOpt : Option String → Bool
  | none => false
  | some s => s ≠ ""

/-- Python `a or b` for strings: `b` when `a` is empty. -/
def orElseStr (a b : String) : String :=
  if a = "" then b else a

/-- `sep.join(l)`. -/
def joinSep (sep : String) : List String → String
  | [] => ""
  | [x] => x
  | x :: y :: rest => x ++ sep ++ joinSep sep (y :: rest)

/-- `', '.join(l)` -/
def joinComma (l : List String) : String :=
  joinSep ", " l

/-- Python `sorted` on strings (lexicographic). -/
def sortStrs (l : List String) : List String :=
  l.insertionSort (· ≤ ·)

/-!
## XML data model

`lxml` elements as seen by the engine: a tag, an attribute list, the
element's leading text (`elem.text`) and its children.
-/

/-- An XML element (the slice of the `lxml` interface the engine uses). -/
structure Elem where
  tag : String
  attrs : List (String × String)
  text : Option String
  children : List Elem

/-- `elem.get(name)`: attribute lookup, `None` when absent. -/
def Elem.get (e : Elem) (a : String) : Option String :=
  e.attrs.lookup a

/-- `elem.findtext(name)`: the text of the first child with the given
tag, `None` when there is no such child or it has no text. -/
def Elem.findtext (e : Elem) (name : String) : Option String :=
  (e.children.find? (fun c => c.tag = name)).bind (fun c => c.text)

/-- A parsed `metadata.xml`: the root element's children. -/
abbrev Metadata := List Elem

/-!
## Identity Mapper (`map_dev`, `map_proj`)
-/

/-- `map_dev(dev, dev_mapping)` from the source: truthiness test on
`dev_mapping.get(dev.lower())`, then `'@' + handle`; on a miss strip a
trailing `@gentoo.org` or replace `@` with `[at]`, wrapped in `~~`. -/
def map_dev (dev : String) (dev_mapping : List (String × String)) : String :=
  if truthyOpt (dev_mapping.lookup (pyLower dev)) then
    "@" ++ (dev_mapping.lookup (pyLower dev)).getD ""
  else if pyEnds dev "@gentoo.org" then
    "~~" ++ pyDropRight dev "@gentoo.org".length ++ "~~"
  else
    "~~" ++ pyReplace1 dev '@' "[at]" ++ "~~"

/-- `map_proj(proj, proj_mapping)` from the source: membership test
(`proj.lower() in proj_mapping`), then `'@' + handle.lower()`; miss
handling mirrors `map_dev` but wraps as `~~[… (project)]~~`. -/
def map_proj (proj : String) (proj_mapping : List (String × String)) : String :=
  if (proj_mapping.lookup (pyLower proj)).isSome then
    "@" ++ pyLower ((proj_mapping.lookup (pyLower proj)).getD "")
  else if pyEnds proj "@gentoo.org" then
    "~~[" ++ pyDropRight proj "@gentoo.org".length ++ " (project)]~~"
  else
    "~~[" ++ pyReplace1 proj '@' "[at]" ++ " (project)]~~"

/-!
## Path Classifier (the file-scan loop, source lines 167-189)
-/

/-- The contribution of one changed file: areas added (in source order),
an optional package reference, and an optional metadata raw URL.
`none` overall models the `IndexError` on `path[1]` for too-short
paths. -/
structure PathOut where
  areas : List String
  pkg : Option String
  metaUrl : Option String
deriving DecidableEq

/-- Classification of a single changed file, from the per-file body of
the scan loop.  `path = f.filename.split('/')`; accessing `path[1]`
when only one segment exists is the error branch (`none`). -/
def classifyFile (cats : List String) (fn url : String) : Option PathOut :=
  match splitSlash fn with
  | [] => none
  | p0 :: rest =>
    if cats.contains p0 then
      match rest with
      | [] => none
      | p1 :: rest2 =>
        if p1 = "metadata.xml" then
          some ⟨["ebuilds", "category-metadata"], none, none⟩
        else if rest2.isEmpty then
          some ⟨["ebuilds", "other files"], none, none⟩
        else
          match rest2 with
          | [] => none
          | p2 :: _ =>
            some ⟨["ebuilds"], some (p0 ++ "/" ++ p1),
              if p2 = "metadata.xml" then some url else none⟩
    else if p0 = "eclass" then
      some ⟨["eclasses"], none, none⟩
    else if p0 = "profiles" then
      match rest with
      | [] => none
      | p1 :: _ =>
        if p1 ≠ "use.local.desc" then some ⟨["profiles"], none, none⟩
        else some ⟨[], none, none⟩
    else if p0 = "metadata" then
      match rest with
      | [] => none
      | p1 :: _ =>
        if p1 ≠ "md5-cache" ∧ p1 ≠ "pkg_desc_index" then
          some ⟨["other files"], none, none⟩
        else some ⟨[], none, none⟩
    else
      some ⟨["other files"], none, none⟩

/-- Append to a set-as-list, preserving insertion order (Python `set`
semantics, insertion order as the canonical enumeration). -/
def addUniq (l : List String) (x : String) : List String :=
  if l.contains x then l else l ++ [x]

/-- Accumulate one file's contribution into the three accumulators. -/
def scanStep (acc : List String × List String × List String) (c : PathOut) :
    List String × List String × List String :=
  (c.areas.foldl addUniq acc.1,
   match c.pkg with
   | none => acc.2.1
   | some p => addUniq acc.2.1 p,
   match c.metaUrl with
   | none => acc.2.2
   | some u => addUniq acc.2.2 u)

/-- The whole file-scan loop: areas, package references and metadata
raw URLs for a pull request; `none` when any path classification hits
the index-error branch. -/
def scanFiles (cats : List String) (files : List (String × String)) :
    Option (List String × List String × List String) :=
  files.foldl
    (fun acc f =>
      acc.bind (fun a => (classifyFile cats f.1 f.2).map (scanStep a)))
    (some ([], [], []))

/-!
## Email Verifier (`verify_email`, `verify_emails`)
-/

/-- A Python exception as observed by the engine: an XML-RPC `Fault`
with its fault code, or any other exception (`AssertionError`,
transport errors, ...). -/
inductive PyErr where
  | fault (code : Nat)
  | exn
deriving DecidableEq

/-- The Bugzilla user-lookup oracle: `bz.getusers(mails)` returns one
record per existing account or raises. -/
abbrev UserOracle := List String → Except PyErr (List Unit)

/-- `verify_email(mail, bz)`: falsy mail is invalid without a query;
fault 51 (account does not exist) is invalid; any other exception
propagates; a successful lookup asserts exactly one record and is
valid. -/
def verify_email (gu : UserOracle) (mail : String) : Except PyErr Bool :=
  if mail = "" then .ok false
  else
    match gu [mail] with
    | .error (.fault 51) => .ok false
    | .error e => .error e
    | .ok resp => if resp.length = 1 then .ok true else .error .exn

/-- The per-address fallback loop of `verify_emails`: yield each mail
that fails verification, propagating errors. -/
def verifyEach (gu : UserOracle) : List String → Except PyErr (List String)
  | [] => .ok []
  | m :: rest =>
    match verify_email gu m with
    | .error e => .error e
    | .ok true => verifyEach gu rest
    | .ok false => (verifyEach gu rest).map (m :: ·)

/-- `verify_emails(mails, bz)`: one batch lookup first; any error there
falls back to per-address verification; a successful batch asserts a
record per mail and yields nothing. -/
def verify_emails (gu : UserOracle) (mails : List String) :
    Except PyErr (List String) :=
  match gu mails with
  | .ok resp => if resp.length = mails.length then .ok [] else .error .exn
  | .error _ => verifyEach gu mails

/-!
## Bug Reference Extractor

The two URL grammars `BUG_LONG_URL_RE` and `BUG_SHORT_URL_RE` embedded
as deterministic parsers.  Both regexes anchor the match at the start
(`re.match`) and at the end (`$`); the digit run is maximal (the
optional trailer cannot begin with a digit), so maximal munch is exact.
-/

/-- Numeric value of a digit run. -/
def digitsVal (l : List Char) : Nat :=
  l.foldl (fun n c => n * 10 + (c.toNat - 48)) 0

/-- Strip a literal prefix, or fail. -/
def afterLit (pre s : String) : Option String :=
  if pyStarts s pre then some (pyDrop s pre.length) else none

/-- `https?://bugs.gentoo.org/` — the shared scheme-and-host prefix of
both grammars. -/
def afterScheme (s : String) : Option String :=
  (afterLit "http" s).bind (fun r =>
    let r := if pyStarts r "s" then pyDrop r 1 else r
    afterLit "://bugs.gentoo.org/" r)

/-- A maximal digit run followed by an allowed trailer: the end of the
string, or one of `extra` followed by anything (`(?:[c…].*)?$`). -/
def digitsThenTrailer (extra : List Char) (s : String) : Option Nat :=
  let ds := s.data.takeWhile Char.isDigit
  let rest := s.data.dropWhile Char.isDigit
  if ds.isEmpty then none
  else
    match rest with
    | [] => some (digitsVal ds)
    | c :: _ => if extra.contains c then some (digitsVal ds) else none

/-- `BUG_LONG_URL_RE`:
`https?://bugs\.gentoo\.org/show_bug\.cgi\?id=(\d+)(?:[&#].*)?$`. -/
def matchLong (s : String) : Option Nat :=
  (afterScheme s).bind (fun r =>
    (afterLit "show_bug.cgi?id=" r).bind (digitsThenTrailer ['&', '#']))

/-- `BUG_SHORT_URL_RE`:
`https?://bugs\.gentoo\.org/(\d+)(?:[?#].*)?$`. -/
def matchShort (s : String) : Option Nat :=
  (afterScheme s).bind (digitsThenTrailer ['?', '#'])

/-- Try the long grammar first, then the short one (source lines
301-303). -/
def urlBug (url : String) : Option Nat :=
  match matchLong url with
  | some n => some n
  | none => matchShort url

/-- Everything after the first colon of a line
(`l.split(':', 1)[1]`). -/
def afterFirstColon (l : String) : String :=
  ⟨afterColonData l.data⟩

/-- Bug extraction for one commit-message line (source lines 298-305):
only `Bug:`/`Closes:` tag lines are considered; the remainder is
stripped and matched against the two grammars. -/
def lineBug (l : String) : Option Nat :=
  if pyStarts l "Bug:" || pyStarts l "Closes:" then
    urlBug (pyStrip (afterFirstColon l))
  else
    none

/-- All bug references of a pull request: union over every line of
every commit message, deduplicated (a Python `set` of ints). -/
def bugsOf (commits : List (List String)) : Finset Nat :=
  commits.foldl
    (fun acc c =>
      c.foldl
        (fun acc l =>
          match lineBug l with
          | none => acc
          | some n => insert n acc)
        acc)
    ∅

/-!
## Maintainer Resolver (source lines 212-274)
-/

/-- The display string for one `maintainer` element (source lines
233-241): route through the project or developer mapper by the `type`
attribute, then the (structurally dead) description-suffix loop, which
tests `m.tag == 'description'` on the *parent* element for every child
`subm`. -/
def maintDisplay (dev proj : List (String × String)) (m : Elem) (em : String) :
    String :=
  let base :=
    if m.get "type" = some "project" then map_proj em proj else map_dev em dev
  m.children.foldl
    (fun ms _subm =>
      if m.tag = "description" ∧ (m.get "lang").getD "en" = "en" then
        ms ++ " (" ++ pyStr m.text ++ ")"
      else ms)
    base

/-- The maintainer loop over a package's metadata root (source lines
229-241): skip non-`maintainer` elements; collect the stripped email
(for `totally_all_maints`) and the display string, in document order.
`none` models the `AttributeError` when a maintainer has no `email`
child (`m.findtext('email').strip()` on `None`). -/
def maintainersOf (dev proj : List (String × String)) :
    Metadata → Option (List String × List String)
  | [] => some ([], [])
  | m :: rest =>
    if m.tag ≠ "maintainer" then maintainersOf dev proj rest
    else
      match m.findtext "email" with
      | none => none
      | some em =>
        (maintainersOf dev proj rest).map
          (fun r => (pyStrip em :: r.1, maintDisplay dev proj m em :: r.2))

/-- The mutable state of the package-resolution loop. -/
structure ResState where
  new_package : Bool := false
  existing_package : Bool := false
  maint_needed : Bool := false
  cant_assign : Bool := false
  not_self_maintained : Bool := false
  unique_maints : Finset (List String) := ∅
  tam : Finset String := ∅
  pkg_maints : List (String × List String) := []
deriving DecidableEq

/-- The initial resolution state (all flags clear, all sets empty). -/
def initRes : ResState := {}

/-- The package-resolution loop (source lines 216-259), iterating the
package references in the given order.  The loop `break`s once the
number of distinct maintainer groups exceeds the limit; `none` models
the missing-email crash. -/
def resolveLoop (repo : String → Option Metadata)
    (dev proj : List (String × String)) (login : String) (limit : Nat) :
    List String → ResState → Option ResState
  | [], st => some st
  | p :: rest, st =>
    match repo p with
    | none =>
      resolveLoop repo dev proj login limit rest
        { st with
          new_package := true
          pkg_maints :=
            st.pkg_maints ++ [(p, ["@gentoo/proxy-maint (new package)"])] }
    | some md =>
      match maintainersOf dev proj md with
      | none => none
      | some r =>
        let st1 :=
          { st with
            existing_package := true
            tam := st.tam ∪ r.1.toFinset }
        if r.2.isEmpty then
          resolveLoop repo dev proj login limit rest
            { st1 with
              maint_needed := true
              pkg_maints :=
                st1.pkg_maints ++
                  [(p, ["@gentoo/proxy-maint (maintainer needed)"])] }
        else
          let st2 :=
            { st1 with
              cant_assign :=
                st1.cant_assign || !(r.2.any (fun x => pyHasChar x '@'))
              pkg_maints := st1.pkg_maints ++ [(p, r.2)]
              not_self_maintained :=
                st1.not_self_maintained || !(r.2.contains ("@" ++ login))
              unique_maints := insert (sortStrs r.2) st1.unique_maints }
          if limit < st2.unique_maints.card then some st2
          else resolveLoop repo dev proj login limit rest st2

/-- The decision vector of the resolution stage: the five flags as they
stand after the loop and the post-loop limit check (source lines
261-262): `cannot_assign` also fires when the group count exceeds the
limit. -/
def decisionFlags (repo : String → Option Metadata)
    (dev proj : List (String × String)) (login : String) (limit : Nat)
    (l : List String) : Option (Bool × Bool × Bool × Bool × Bool) :=
  (resolveLoop repo dev proj login limit l initRes).map
    (fun st =>
      (st.new_package, st.existing_package, st.maint_needed,
       st.cant_assign || decide (limit < st.unique_maints.card),
       st.not_self_maintained))

/-!
## Maintainer addresses at verification time (source lines 273-292)
-/

/-- The maintainer emails of one remotely fetched `metadata.xml`
(source lines 288-290); `none` models the missing-email crash. -/
def metaEmails : Metadata → Option (List String)
  | [] => some []
  | m :: rest =>
    if m.tag = "maintainer" then
      match m.findtext "email" with
      | none => none
      | some em => (metaEmails rest).map (pyStrip em :: ·)
    else metaEmails rest

/-- The changed-metadata-file loop (source lines 279-292): fetch each
raw URL; a parse failure (`XMLSyntaxError`, modelled as `fetch = none`)
is swallowed; otherwise the maintainer emails are added. -/
def metaAddEmails (fetch : String → Option Metadata) :
    List String → Option (Finset String)
  | [] => some ∅
  | u :: rest =>
    match fetch u with
    | none => metaAddEmails fetch rest
    | some md =>
      match metaEmails md with
      | none => none
      | some ems => (metaAddEmails fetch rest).map (· ∪ ems.toFinset)

/-- `totally_all_maints` as it stands when identity verification runs:
cleared when the group count exceeded the limit (source lines 273-274),
then extended with the addresses from changed metadata files. -/
def tamAtVerification (st : ResState) (limit : Nat)
    (fetch : String → Option Metadata) (metaFiles : List String) :
    Option (Finset String) :=
  (metaAddEmails fetch metaFiles).map
    (fun extra =>
      (if limit < st.unique_maints.card then (∅ : Finset String) else st.tam) ∪
        extra)

/-!
## Decision / Label State Machine (source lines 359-393)
-/

/-- The labels removed before applying the new set (source lines
361-364). -/
def removeLabelNames : List String :=
  ["assigned", "need assignment", "self-maintained", "maintainer-needed",
   "new package", "no signoff", "bug linked", "no bug found",
   "invalid email", "invalid bug linked"]

/-- The closed bot-managed label vocabulary, per the specification. -/
def labelVocabulary : List String :=
  ["assigned", "need assignment", "self-maintained", "maintainer-needed",
   "new package", "no signoff", "bug linked", "no bug found",
   "invalid email", "invalid bug linked", "security", "noci"]

/-- The label-removal pass: every currently applied label in the
removal list is taken off the issue. -/
def removeOldLabels (l : Finset String) : Finset String :=
  l.filter (fun x => ¬ removeLabelNames.contains x)

/-- The labels added by the decision block (source lines 367-393), in
source order.  `maintainer-needed` forces `not_self_maintained` before
the self-maintained check (line 371). -/
def computeAdds (maint_needed new_package cant_assign not_self_maintained
    bugsNonempty security invalid_bug_linked invalid_email missing_signoff
    noci : Bool) : List String :=
  let nsm := not_self_maintained || maint_needed
  (if maint_needed then ["maintainer-needed"] else []) ++
  (if new_package then ["new package"] else []) ++
  (if cant_assign then ["need assignment"]
   else (if !nsm then ["self-maintained"] else []) ++ ["assigned"]) ++
  (if bugsNonempty then
     ["bug linked"] ++ (if security then ["security"] else [])
   else if nsm then ["no bug found"] else []) ++
  (if invalid_bug_linked then ["invalid bug linked"] else []) ++
  (if invalid_email then ["invalid email"] else []) ++
  (if missing_signoff then ["no signoff"] else []) ++
  (if noci then ["noci"] else [])

/-- The net label transition of one run: remove the old bot-managed
labels, then add the computed set. -/
def labelTransition (adds : List String) (l : Finset String) : Finset String :=
  removeOldLabels l ∪ adds.toFinset

/-!
## The full decision engine (`assign_one`, post-guard part)

A snapshot of one pull request together with the oracle functions for
the external collaborators.
-/

/-- One pull-request snapshot: everything `assign_one` reads after the
reassignment guard. -/
structure Snapshot where
  /-- `profiles/categories` of the reference tree. -/
  categories : List String
  /-- Changed files: `(filename, raw_url)` per diff entry. -/
  files : List (String × String)
  /-- `pr.user.login`. -/
  login : String
  /-- `issue.title`. -/
  title : String
  /-- Commit messages, one list of lines per commit. -/
  commits : List (List String)
  devMapping : List (String × String)
  projMapping : List (String × String)
  /-- Package reference ↦ parsed `metadata.xml` of the reference tree;
  `none` is the `OSError`/`IOError` (new package) path. -/
  repo : String → Option Metadata
  /-- Raw URL ↦ parsed remote `metadata.xml`; `none` is the swallowed
  `XMLSyntaxError` path. -/
  fetch : String → Option Metadata
  /-- `bz.getusers`. -/
  getusers : UserOracle
  /-- `bz.update_bugs` outcome for the given bug list. -/
  updateBugs : List Nat → Except PyErr Unit
  /-- Whether a bug is assigned to one of the security-team accounts
  (`bz.getbugs` + the fixed id list). -/
  secBug : Nat → Bool
  bugzillaUrl : String

/-- The outputs of one engine run that feed the comment and the label
transition. -/
structure Decision where
  body : String
  maint_needed : Bool
  new_package : Bool
  cant_assign : Bool
  not_self_maintained : Bool
  bugsNonempty : Bool
  security : Bool
  invalid_bug_linked : Bool
  invalid_email : Bool
  missing_signoff : Bool
  noci : Bool

/-- The report-body header (source lines 191-199). -/
def bodyHeader (login : String) (areasL packagesL : List String) : String :=
  "## Pull Request assignment\n\n*Submitter*: " ++ ("@" ++ login) ++
  "\n*Areas affected*: " ++
  orElseStr (joinComma (sortStrs areasL)) "(none, wtf?!)" ++
  "\n*Packages affected*: " ++
  orElseStr (joinComma ((sortStrs packagesL).take 5)) "(none)" ++
  (if packagesL.length > 5 then "..." else "") ++ "\n"

/-- The per-package body lines of the within-limit branch (source lines
265-268). -/
def bodyPackages (packagesL : List String)
    (pkg_maints : List (String × List String)) (cant : Bool) : String :=
  (sortStrs packagesL).foldl
    (fun b p => b ++ "\n**" ++ p ++ "**: " ++
      joinComma ((pkg_maints.lookup p).getD []))
    "" ++
  (if cant then
    "\n\nAt least one of the listed packages is maintained entirely by non-GitHub developers!"
   else "")

/-- The linked-bugs section and its side effects (source lines
307-328): the bug list rendering, the cross-link update with its
fault-101 handling, and the security check.  Returns
`(invalid_bug_linked, body fragment, security)`. -/
def bugStep (s : Snapshot) (bug_limit : Nat) (bugs : Finset Nat)
    (bugsL : List Nat) : Except PyErr (Bool × String × Bool) :=
  if bugs = ∅ then
    .ok (false,
      "\n\nNo bugs to link found. If your pull request references any of the Gentoo bug reports, please add appropriate [GLEP 66](https://www.gentoo.org/glep/glep-0066.html#commit-messages) tags to the commit message and request reassignment.",
      false)
  else
    let linkLine := "\nBugs linked: " ++
      joinComma (bugsL.map (fun x =>
        "[" ++ toString x ++ "](" ++ s.bugzillaUrl ++ "/" ++ toString x ++ ")"))
    let security := bugsL.any s.secBug
    if bug_limit < bugs.card then
      .ok (false,
        linkLine ++ "\nCross-linking bugs disabled due to large number of bugs linked.",
        security)
    else
      match s.updateBugs bugsL with
      | .ok _ => .ok (false, linkLine, security)
      | .error (.fault 101) =>
        .ok (true, linkLine ++ "\n\n**One of the linked bugs does not exist!**",
          security)
      | .error e => .error e

/-- The missing-accounts warning (source lines 341-346). -/
def bodyInvalidMails (invalid_mails : List String) : String :=
  if invalid_mails.isEmpty then ""
  else
    "\n\n## Missing Bugzilla accounts\n\n**WARNING**: The following maintainers do not match any Bugzilla accounts:" ++
    invalid_mails.foldl (fun b m => b ++ "\n- " ++ m) "" ++
    "\n\nPlease either fix the e-mail addresses in metadata.xml or create a Bugzilla account, and request reassignment afterwards."

/-- The decision engine proper: everything `assign_one` computes after
the reassignment guard, as a function of the snapshot and of the
`no assignee limit` bypass flag.  Errors are the propagated Python
exceptions.  Where the source iterates a Python `set` whose element
order does not affect the decision (the bug-id set, the collected
address set), the iteration order is modelled canonically as
ascending. -/
def assignDecision (s : Snapshot) (noLimit : Bool) : Except PyErr Decision :=
  let assignee_limit : Nat := if noLimit then 9999 else 5
  let bug_limit : Nat := if noLimit then 9999 else 5
  match scanFiles s.categories s.files with
  | none => .error .exn
  | some scan =>
    let areasL := scan.1
    let packagesL := scan.2.1
    let metaFiles := scan.2.2
    let body0 := bodyHeader s.login areasL packagesL
    match
      (if packagesL.isEmpty then some initRes
       else resolveLoop s.repo s.devMapping s.projMapping s.login
              assignee_limit packagesL initRes) with
    | none => .error .exn
    | some st =>
      let toomany := decide (assignee_limit < st.unique_maints.card)
      let cant :=
        if packagesL.isEmpty then true else st.cant_assign || toomany
      let body1 := body0 ++
        (if packagesL.isEmpty then "\n@gentoo/github"
         else if toomany then
           "\n@gentoo/github: Too many disjoint maintainers, disabling auto-assignment."
         else bodyPackages packagesL st.pkg_maints st.cant_assign)
      match tamAtVerification st assignee_limit s.fetch metaFiles with
      | none => .error .exn
      | some tamF =>
        let bugs := bugsOf s.commits
        let bugsL := bugs.sort (· ≤ ·)
        let body2 := body1 ++ "\n\n## Linked bugs"
        match bugStep s bug_limit bugs bugsL with
        | .error e => .error e
        | .ok bs =>
          let invalid_bug_linked := bs.1
          let body3 := body2 ++ bs.2.1
          let security := bs.2.2
          let body4 := body3 ++
            (if st.existing_package && st.not_self_maintained &&
                decide (bugs = ∅) then
              "\n\n**If you do not receive any reply to this pull request, please open or link a bug to attract the attention of maintainers.**"
             else "")
          let body5 := body4 ++
            (if !st.existing_package then
              "\n\n## New packages\nThis Pull Request appears to be introducing new packages only. Due to limited manpower, adding new packages is considered low priority. This does not mean that your Pull Request will not receive any attention, however, it might take quite some time for it to be reviewed. In the meantime, your new ebuild might find a home in the [GURU project repository](https://wiki.gentoo.org/wiki/Project:GURU): the ebuild repository maintained collaboratively by Gentoo users. GURU offers your ebuild a place to be reviewed and improved by other Gentoo users, while making it easy for Gentoo users to install it and enjoy the software it adds."
             else "")
          match
            (if tamF = ∅ then Except.ok []
             else (verify_emails s.getusers (tamF.sort (· ≤ ·))).map sortStrs)
            with
          | .error e => .error e
          | .ok invalid_mails =>
            let invalid_email := !invalid_mails.isEmpty
            let body6 := body5 ++ bodyInvalidMails invalid_mails
            let missing_signoff := s.commits.any (fun c =>
              !(c.any (fun x => pyStarts x "Signed-off-by:")))
            let body7 := body6 ++
              (if missing_signoff then
                "\n\n## Missing GCO sign-off\n\nPlease read the terms of [Gentoo Certificate of Origin](https://www.gentoo.org/glep/glep-0076.html#certificate-of-origin) and acknowledge them by adding a sign-off to *all* your commits."
               else "")
            let body8 := body7 ++
              "\n\n---\nIn order to force reassignment and/or bug reference scan, please append `[please reassign]` to the pull request title.\n\n*Docs*: [Code of Conduct](https://wiki.gentoo.org/wiki/Project:Council/Code_of_conduct) ● [Copyright policy](https://www.gentoo.org/glep/glep-0076.html) ([expl.](https://dev.gentoo.org/~mgorny/articles/new-gentoo-copyright-policy-explained.html)) ● [Devmanual](https://devmanual.gentoo.org/) ● [GitHub PRs](https://wiki.gentoo.org/wiki/Project:GitHub/Pull_requests) ● [Proxy-maint guide](https://wiki.gentoo.org/wiki/Project:Proxy_Maintainers/User_Guide)"
            .ok
              { body := body8
                maint_needed := st.maint_needed
                new_package := st.new_package
                cant_assign := cant
                not_self_maintained := st.not_self_maintained
                bugsNonempty := !bugsL.isEmpty
                security := security
                invalid_bug_linked := invalid_bug_linked
                invalid_email := invalid_email
                missing_signoff := missing_signoff
                noci := containsSub (pyLower s.title) "[noci]" }

/-- The labels added by a decision. -/
def decisionAdds (d : Decision) : List String :=
  computeAdds d.maint_needed d.new_package d.cant_assign
    d.not_self_maintained d.bugsNonempty d.security d.invalid_bug_linked
    d.invalid_email d.missing_signoff d.noci

/-- One full engine run over a snapshot and the current label state:
the posted comment body and the resulting label state.  The label
state is read for the `no assignee limit` bypass and rewritten by the
removal/addition pass. -/
def assignRun (s : Snapshot) (l : Finset String) :
    Except PyErr (String × Finset String) :=
  match assignDecision s (decide (("no assignee limit" : String) ∈ l)) with
  | .error e => .error e
  | .ok d => .ok (d.body, labelTransition (decisionAdds d) l)

/-- Two consecutive engine runs on an unchanged snapshot: the second
run starts from the label state the first one produced. -/
def assignTwice (s : Snapshot) (l : Finset String) :
    Except PyErr (String × Finset String) :=
  match assignRun s l with
  | .error e => .error e
  | .ok r => assignRun s r.2

/-!
## Concrete fixtures for counterexamples and witnesses
-/

/-- A `maintainer` element with a single `email` child. -/
def mkMaint (em : String) : Elem :=
  ⟨"maintainer", [], none, [⟨"email", [], some em, []⟩]⟩

/-- A reference tree with six packages whose maintainer sets are
pairwise distinct and no other packages. -/
def repo0 : String → Option Metadata := fun p =>
  if p = "c/p1" then some [mkMaint "a@gentoo.org"]
  else if p = "c/p2" then some [mkMaint "b@gentoo.org"]
  else if p = "c/p3" then some [mkMaint "c@gentoo.org"]
  else if p = "c/p4" then some [mkMaint "d@gentoo.org"]
  else if p = "c/p5" then some [mkMaint "e@gentoo.org"]
  else if p = "c/p6" then some [mkMaint "f@gentoo.org"]
  else none

/-- The six existing packages of `repo0` plus one new package, the new
package resolved first. -/
def ordA : List String :=
  ["c/new", "c/p1", "c/p2", "c/p3", "c/p4", "c/p5", "c/p6"]

/-- The same package set as `ordA`, the new package resolved last. -/
def ordB : List String :=
  ["c/p1", "c/p2", "c/p3", "c/p4", "c/p5", "c/p6", "c/new"]

/-- The six existing packages only. -/
def ordC : List String :=
  ["c/p1", "c/p2", "c/p3", "c/p4", "c/p5", "c/p6"]

/-- A fetch oracle: one changed `metadata.xml` whose new content
carries one maintainer. -/
def fetch0 : String → Option Metadata := fun u =>
  if u = "rawurl" then some [mkMaint "newmaint@example.com"] else none

/-- A maintainer element that carries an English description child —
the input on which the specification expects a description suffix. -/
def mDesc : Elem :=
  ⟨"maintainer", [], some "  ",
   [⟨"email", [], some "foo@gentoo.org", []⟩,
    ⟨"description", [], some "Primary maintainer", []⟩]⟩

/-- The resolution outcome for a single package. -/
inductive PkgRes where
  | newPkg
  | crash
  | mneeded
  | grp (ems : List String) (ms : List String)
deriving DecidableEq

/-- Classify one package exactly as the loop body does. -/
def pkgClass (repo : String → Option Metadata)
    (dev proj : List (String × String)) (p : String) : PkgRes :=
  match repo p with
  | none => .newPkg
  | some md =>
    match maintainersOf dev proj md with
    | none => .crash
    | some r => if r.2.isEmpty then .mneeded else .grp r.1 r.2

/-- The package contributes `new_package`. -/
def pcNew : PkgRes → Bool
  | .newPkg => true
  | _ => false

/-- The package contributes `existing_package`. -/
def pcExist : PkgRes → Bool
  | .mneeded => true
  | .grp _ _ => true
  | _ => false

/-- The package contributes `maint_needed`. -/
def pcMneed : PkgRes → Bool
  | .mneeded => true
  | _ => false

/-- The package contributes `cant_assign` (no maintainer resolves to a
handle). -/
def pcNoGh : PkgRes → Bool
  | .grp _ ms => !(ms.any (fun x => pyHasChar x '@'))
  | _ => false

/-- The package contributes `not_self_maintained`. -/
def pcNotSelf (login : String) : PkgRes → Bool
  | .grp _ ms => !(ms.contains ("@" ++ login))
  | _ => false

/-- The maintainer group contributed to `unique_maints`, if any. -/
def pcGroup : PkgRes → Option (List String)
  | .grp _ ms => some (sortStrs ms)
  | _ => none

/-- The set of distinct maintainer groups of a package list. -/
def groupsOf (repo : String → Option Metadata)
    (dev proj : List (String × String)) (l : List String) :
    Finset (List String) :=
  (l.filterMap (fun p => pcGroup (pkgClass repo dev proj p))).toFinset

/-- Invalid classification of a single address in the fallback path:
falsy, or the tracker reports fault 51 for it. -/
def invalidAddr (gu : UserOracle) (m : String) : Bool :=
  m = "" ||
  (match gu [m] with
   | .error (.fault 51) => true
   | _ => false)

/-- A concrete user oracle: `a@x` exists, `bad@x` does not (fault 51),
`err@x` faults with code 32, and the two-address batch lookup fails
with a transport error. -/
def gu0 : UserOracle := fun l =>
  if l = ["bad@x"] then .error (.fault 51)
  else if l = ["err@x"] then .error (.fault 32)
  else if l = ["a@x", "bad@x"] then .error .exn
  else .ok (l.map fun _ => ())

/-!
## Claim C8 — `map_dev`
-/

/-- C8, counterexample: the claim says a lookup hit always yields
`"@" + handle`, but the source tests Python truthiness of the looked-up
value, so a mapping entry whose handle is the empty string is treated
as a miss: the result is the obfuscated strikethrough form, not
`"@" + ""`. -/
theorem c8_counterexample :
    map_dev "a@b.c" [("a@b.c", "")] = "~~a[at]b.c~~" ∧
    ("~~a[at]b.c~~" : String) ≠ "@" ++ "" := by
  decide

/-- C8, amended: `map_dev` performs the lookup on the lowercased
address and returns `"@" + handle` on a hit with a *non-empty* handle
(an entry with an empty handle falls through to the miss path); on a
miss it strips a trailing `@gentoo.org`, otherwise replaces `@` by
`[at]`, and wraps the result in `~~`; the three specification examples
evaluate as stated. -/
theorem c8_map_dev_amended :
    (∀ (dev : String) (mapping : List (String × String)) (h : String),
        mapping.lookup (pyLower dev) = some h → h ≠ "" →
        map_dev dev mapping = "@" ++ h) ∧
    (∀ (dev : String) (mapping : List (String × String)),
        truthyOpt (mapping.lookup (pyLower dev)) = false →
        (pyEnds dev "@gentoo.org" = true →
          map_dev dev mapping =
            "~~" ++ pyDropRight dev "@gentoo.org".length ++ "~~") ∧
        (pyEnds dev "@gentoo.org" = false →
          map_dev dev mapping =
            "~~" ++ pyReplace1 dev '@' "[at]" ++ "~~")) ∧
    map_dev "foo@gentoo.org" [] = "~~foo~~" ∧
    map_dev "x@y.com" [] = "~~x[at]y.com~~" ∧
    map_dev "FOO@GENTOO.ORG" [("foo@gentoo.org", "bar")] = "@bar" := by
  refine ⟨?_, ?_, by decide, by decide, by decide⟩
  · intro dev mapping h hl hne
    simp [map_dev, hl, truthyOpt, hne]
  · intro dev mapping ht
    exact ⟨fun he => by simp [map_dev, ht, he], fun he => by simp [map_dev, ht, he]⟩

/-- C8, witness for the amended theorem at concrete inputs. -/
theorem c8_witness :
    map_dev "Dev@Gentoo.org" [("dev@gentoo.org", "ghdev")] = "@" ++ "ghdev" ∧
    map_dev "someone@gentoo.org" [] = "~~" ++ pyDropRight "someone@gentoo.org" "@gentoo.org".length ++ "~~" :=
  ⟨c8_map_dev_amended.1 "Dev@Gentoo.org" [("dev@gentoo.org", "ghdev")] "ghdev"
      (by decide) (by decide),
   (c8_map_dev_amended.2.1 "someone@gentoo.org" [] (by decide)).1 (by decide)⟩

/-!
## Claim C3 — the description suffix
-/

/-- A fold that ignores its elements returns its initial value. -/
theorem foldl_const {α β : Type} :
    ∀ (l : List β) (a : α), l.foldl (fun x _ => x) a = a
  | [], _ => rfl
  | _ :: t, a => foldl_const t a

/-- For every element whose tag is not `description` — in particular
every `maintainer` element that reaches the loop — the suffix branch is
dead and the display string is exactly the mapper output. -/
theorem maintDisplay_no_suffix (dev proj : List (String × String))
    (m : Elem) (em : String) (hm : m.tag ≠ "description") :
    maintDisplay dev proj m em =
      (if m.get "type" = some "project" then map_proj em proj
       else map_dev em dev) := by
  have hfun :
      (fun (ms : String) (_subm : Elem) =>
          if m.tag = "description" ∧ (m.get "lang").getD "en" = "en" then
            ms ++ " (" ++ pyStr m.text ++ ")"
          else ms) =
        fun ms _ => ms := by
    funext ms _
    simp [hm]
  simp only [maintDisplay, hfun, foldl_const]

/-- C3: the description-suffix loop guard tests the *parent* element's
tag (`m.tag == 'description'`), which is `"maintainer"` for every
element that reaches it, so the suffix is never appended: on a
maintainer element carrying an English description the display string
stays `"~~foo~~"` instead of the specified
`"~~foo~~ (Primary maintainer)"`. -/
theorem c3_description_never_appended :
    maintDisplay [] [] mDesc "foo@gentoo.org" = "~~foo~~" ∧
    maintainersOf [] [] [mDesc] = some (["foo@gentoo.org"], ["~~foo~~"]) ∧
    ("~~foo~~" : String) ≠ "~~foo~~ (Primary maintainer)" := by
  decide

/-!
## Claim C4 — label removal
-/

/-- C4, counterexample: `security` and `noci` belong to the bot-managed
label vocabulary but are absent from the removal list, and a previously
applied `security`/`noci` label survives the removal pass — the claimed
full-replace semantics over the whole vocabulary fails. -/
theorem c4_counterexample :
    ("security" ∈ labelVocabulary ∧ "noci" ∈ labelVocabulary) ∧
    ("security" ∉ removeLabelNames ∧ "noci" ∉ removeLabelNames) ∧
    removeOldLabels {"security", "noci"} = {"security", "noci"} :=
  ⟨by decide, by decide, rfl⟩

/-- C4, amended: the removal pass removes exactly the ten labels of the
vocabulary other than `security` and `noci`; every removed label is
absent afterwards, while previously applied `security` and `noci`
labels persist. -/
theorem c4_label_removal_amended :
    removeLabelNames =
      labelVocabulary.filter (fun x => !(x = "security" || x = "noci")) ∧
    (∀ (l : Finset String) (x : String), x ∈ removeLabelNames →
        x ∉ removeOldLabels l) ∧
    (∀ l : Finset String, "security" ∈ l → "security" ∈ removeOldLabels l) ∧
    (∀ l : Finset String, "noci" ∈ l → "noci" ∈ removeOldLabels l) := by
  refine ⟨by decide, ?_, ?_, ?_⟩
  · intro l x hx
    simp [removeOldLabels, Finset.mem_filter, hx]
  · intro l hl
    simp only [removeOldLabels, Finset.mem_filter]
    exact ⟨hl, by decide⟩
  · intro l hl
    simp only [removeOldLabels, Finset.mem_filter]
    exact ⟨hl, by decide⟩

/-- C4, witness for the amended theorem at concrete inputs. -/
theorem c4_witness :
    "assigned" ∉ removeOldLabels {"assigned", "security"} ∧
    "security" ∈ removeOldLabels {"assigned", "security"} ∧
    "noci" ∈ removeOldLabels {"noci"} :=
  ⟨c4_label_removal_amended.2.1 {"assigned", "security"} "assigned" (by decide),
   c4_label_removal_amended.2.2.1 {"assigned", "security"} (by decide),
   c4_label_removal_amended.2.2.2 {"noci"} (by decide)⟩

/-!
## Claim C7 — bug extraction
-/

/-- C7: a bug reference is extracted exactly from `Bug:`/`Closes:` tag
lines whose stripped remainder matches the long-form grammar first or
the short-form grammar second; the specification examples evaluate as
stated and bug ids are deduplicated across commits. -/
theorem c7_bug_extraction :
    bugsOf [["Bug: https://bugs.gentoo.org/show_bug.cgi?id=12345"]] = {12345} ∧
    bugsOf [["Bug: https://bugs.gentoo.org/12345"]] = {12345} ∧
    bugsOf [["See-also: https://bugs.gentoo.org/12345"]] = ∅ ∧
    bugsOf [["Bug: https://bugs.gentoo.org/show_bug.cgi?id=12345"],
            ["Closes: https://bugs.gentoo.org/12345"]] = {12345} ∧
    (∀ l : String, pyStarts l "Bug:" = false → pyStarts l "Closes:" = false →
        lineBug l = none) ∧
    (∀ l : String, pyStarts l "Bug:" = true ∨ pyStarts l "Closes:" = true →
        lineBug l = urlBug (pyStrip (afterFirstColon l))) ∧
    (∀ (url : String) (n : Nat), matchLong url = some n →
        urlBug url = some n) ∧
    (∀ url : String, matchLong url = none → urlBug url = matchShort url) := by
  refine ⟨rfl, rfl, rfl, rfl, ?_, ?_, ?_, ?_⟩
  · intro l h1 h2
    simp [lineBug, h1, h2]
  · intro l h
    rcases h with h | h <;> simp [lineBug, h]
  · intro url n h
    simp [urlBug, h]
  · intro url h
    simp [urlBug, h]

/-- C7, witness for the quantified parts at concrete inputs. -/
theorem c7_witness :
    lineBug "Fixes: https://bugs.gentoo.org/999" = none ∧
    lineBug "Closes: https://bugs.gentoo.org/77" =
      urlBug (pyStrip (afterFirstColon "Closes: https://bugs.gentoo.org/77")) ∧
    urlBug "https://bugs.gentoo.org/show_bug.cgi?id=7" = some 7 ∧
    urlBug "https://bugs.gentoo.org/42" =
      matchShort "https://bugs.gentoo.org/42" :=
  ⟨c7_bug_extraction.2.2.2.2.1 _ (by decide) (by decide),
   c7_bug_extraction.2.2.2.2.2.1 _ (Or.inr (by decide)),
   c7_bug_extraction.2.2.2.2.2.2.1 _ 7 (by decide),
   c7_bug_extraction.2.2.2.2.2.2.2 _ (by decide)⟩

/-!
## Claim C5 — self-maintenance exclusivity
-/

/-- C5: whatever the decision vector (all ten flags) and whatever
labels were previously applied, the final label set never contains both
`self-maintained` and `need assignment`, and never contains
`self-maintained` together with `maintainer-needed`. -/
theorem c5_label_exclusivity :
    ∀ (mn np ca nsm bn sec ib ie ms nc : Bool) (l : Finset String),
      ¬("self-maintained" ∈
          labelTransition (computeAdds mn np ca nsm bn sec ib ie ms nc) l ∧
        "need assignment" ∈
          labelTransition (computeAdds mn np ca nsm bn sec ib ie ms nc) l) ∧
      ¬("self-maintained" ∈
          labelTransition (computeAdds mn np ca nsm bn sec ib ie ms nc) l ∧
        "maintainer-needed" ∈
          labelTransition (computeAdds mn np ca nsm bn sec ib ie ms nc) l) := by
  intro mn np ca nsm bn sec ib ie ms nc l
  have h1 : removeLabelNames.contains "self-maintained" = true := by decide
  have h2 : removeLabelNames.contains "need assignment" = true := by decide
  have h3 : removeLabelNames.contains "maintainer-needed" = true := by decide
  simp only [labelTransition, removeOldLabels, Finset.mem_union,
    Finset.mem_filter, List.mem_toFinset, h1, h2, h3, not_true, and_false,
    false_or]
  revert mn np ca nsm bn sec ib ie ms nc
  decide

/-!
## Claim C1 — clearing of `totally_all_maints`
-/

/-- C1, counterexample: a pull request over the six disjointly
maintained packages of `repo0` (six unique maintainer groups, above the
limit of five) that also changes one package `metadata.xml` whose new
content carries a maintainer.  The group count exceeds the limit, yet
at the point identity verification runs the address set holds the
re-added address and is nonempty, so verification is performed. -/
theorem c1_counterexample :
    (resolveLoop repo0 [] [] "user" 5 ordC initRes).map
        (fun st => (decide (5 < st.unique_maints.card),
                    tamAtVerification st 5 fetch0 ["rawurl"])) =
      some (true, some {"newmaint@example.com"}) ∧
    ({"newmaint@example.com"} : Finset String) ≠ ∅ :=
  ⟨rfl, Finset.singleton_ne_empty _⟩

/-- C1, amended: when the unique-group count exceeds the limit the
addresses collected during resolution are discarded *entirely* — the
set at verification time is exactly the set re-added from changed
`metadata.xml` files, independent of what was collected — and with no
changed metadata files it is empty, so verification is skipped. -/
theorem c1_totally_all_maints_amended (st : ResState) (limit : Nat)
    (fetch : String → Option Metadata) (metas : List String)
    (h : limit < st.unique_maints.card) :
    tamAtVerification st limit fetch metas = metaAddEmails fetch metas ∧
    tamAtVerification st limit fetch [] = some ∅ := by
  constructor
  · cases hm : metaAddEmails fetch metas <;>
      simp [tamAtVerification, hm, h]
  · simp [tamAtVerification, metaAddEmails, h]

/-- C1, witness: the amended theorem applied to the resolution state of
the `repo0` pull request. -/
theorem c1_witness :
    5 < (⟨false, true, false, true, true,
          {["~~a~~"], ["~~b~~"], ["~~c~~"], ["~~d~~"], ["~~e~~"], ["~~f~~"]},
          {"a@gentoo.org", "b@gentoo.org", "c@gentoo.org", "d@gentoo.org",
           "e@gentoo.org", "f@gentoo.org"}, []⟩ : ResState).unique_maints.card ∧
    tamAtVerification
        ⟨false, true, false, true, true,
         {["~~a~~"], ["~~b~~"], ["~~c~~"], ["~~d~~"], ["~~e~~"], ["~~f~~"]},
         {"a@gentoo.org", "b@gentoo.org", "c@gentoo.org", "d@gentoo.org",
          "e@gentoo.org", "f@gentoo.org"}, []⟩ 5 fetch0 ["rawurl"] =
      metaAddEmails fetch0 ["rawurl"] :=
  ⟨by decide,
   (c1_totally_all_maints_amended _ 5 fetch0 ["rawurl"] (by decide)).1⟩

/-!
## Claim C10 — partiality of the path classifier
-/

/-- C10: a changed path of exactly one segment hits the unconditional
`path[1]` access whenever the segment is a known category, `profiles`,
or `metadata` — the error branch of the embedded classifier is
reachable — while every path of at least two segments classifies
successfully. -/
theorem c10_path_classifier :
    (∀ (cats : List String) (url c : String),
        (cats.contains c = true ∨ c = "profiles" ∨ c = "metadata") →
        splitSlash c = [c] →
        classifyFile cats c url = none) ∧
    (∀ (cats : List String) (fn url : String),
        2 ≤ (splitSlash fn).length →
        (classifyFile cats fn url).isSome = true) := by
  constructor
  · intro cats url c hc hsp
    rcases hc with hc | rfl | rfl
    · have hc' : c ∈ cats := by simpa using hc
      simp [classifyFile, hsp, hc']
    · by_cases hc : ("profiles" : String) ∈ cats <;> simp [classifyFile, hsp, hc]
    · by_cases hc : ("metadata" : String) ∈ cats <;> simp [classifyFile, hsp, hc]
  · intro cats fn url h
    rcases hsp : splitSlash fn with _ | ⟨p0, rest⟩
    · rw [hsp] at h; simp at h
    rcases hr : rest with _ | ⟨p1, rest2⟩
    · rw [hsp, hr] at h; simp at h
    rcases hr2 : rest2 with _ | ⟨p2, rest3⟩ <;>
      · simp only [classifyFile, hsp, hr, hr2]
        split_ifs <;> simp_all

/-- C10, witness at concrete inputs. -/
theorem c10_witness :
    classifyFile ["app-foo"] "app-foo" "u" = none ∧
    classifyFile [] "profiles" "u" = none ∧
    classifyFile [] "metadata" "u" = none ∧
    (classifyFile ["app-foo"] "app-foo/bar/baz.ebuild" "u").isSome = true :=
  ⟨c10_path_classifier.1 ["app-foo"] "u" "app-foo" (Or.inl (by decide))
      (by decide),
   c10_path_classifier.1 [] "u" "profiles" (Or.inr (Or.inl rfl)) (by decide),
   c10_path_classifier.1 [] "u" "metadata" (Or.inr (Or.inr rfl)) (by decide),
   c10_path_classifier.2 ["app-foo"] "app-foo/bar/baz.ebuild" "u" (by decide)⟩

/-!
## Claim C6 — the email verifier
-/

/-- The fallback loop returns exactly the invalid addresses, provided
every individual lookup either faults with 51 or returns a single
record. -/
theorem verifyEach_filter (gu : UserOracle) :
    ∀ mails : List String,
      (∀ m ∈ mails, m = "" ∨ gu [m] = .error (.fault 51) ∨
          ∃ u, gu [m] = .ok [u]) →
      verifyEach gu mails = .ok (mails.filter (invalidAddr gu))
  | [], _ => rfl
  | m :: rest, h => by
    have ih := verifyEach_filter gu rest (fun x hx => h x (List.mem_cons_of_mem _ hx))
    by_cases hm : m = ""
    · subst hm
      simp [verifyEach, verify_email, ih, invalidAddr, Except.map]
    · rcases h m (List.mem_cons_self _ _) with h0 | h51 | ⟨u, hok⟩
      · exact absurd h0 hm
      · simp [verifyEach, verify_email, hm, h51, ih, invalidAddr, Except.map]
      · simp [verifyEach, verify_email, hm, hok, ih, invalidAddr, Except.map]

/-- C6: the verifier returns the invalid subset — a successful batch
lookup short-circuits to the empty result; a failed batch lookup falls
back to per-address verification where fault 51 marks an address
invalid; falsy addresses are invalid without a query; and any other
per-address fault propagates as an error. -/
theorem c6_verify_emails :
    (∀ (gu : UserOracle) (mails : List String) (r : List Unit),
        gu mails = .ok r → r.length = mails.length →
        verify_emails gu mails = .ok []) ∧
    (∀ (gu : UserOracle) (mails : List String) (e : PyErr),
        gu mails = .error e →
        (∀ m ∈ mails, m = "" ∨ gu [m] = .error (.fault 51) ∨
            ∃ u, gu [m] = .ok [u]) →
        verify_emails gu mails = .ok (mails.filter (invalidAddr gu))) ∧
    (∀ gu : UserOracle, verify_email gu "" = .ok false) ∧
    (∀ (gu : UserOracle) (m : String), m ≠ "" →
        gu [m] = .error (.fault 51) → verify_email gu m = .ok false) ∧
    (∀ (gu : UserOracle) (m : String) (e : PyErr), m ≠ "" →
        gu [m] = .error e → e ≠ .fault 51 → verify_email gu m = .error e) ∧
    (∀ (gu : UserOracle) (m : String) (rest : List String) (e eb : PyErr),
        gu (m :: rest) = .error eb → verify_email gu m = .error e →
        verify_emails gu (m :: rest) = .error e) := by
  refine ⟨?_, ?_, fun _ => rfl, ?_, ?_, ?_⟩
  · intro gu mails r hgu hlen
    simp [verify_emails, hgu, hlen]
  · intro gu mails e hgu hall
    simp only [verify_emails, hgu]
    exact verifyEach_filter gu mails hall
  · intro gu m hm h51
    simp [verify_email, hm, h51]
  · intro gu m e hm hgu hne
    cases e with
    | exn => simp [verify_email, hm, hgu]
    | fault c =>
      have hc : c ≠ 51 := fun h => hne (by rw [h])
      simp only [verify_email, hm, if_neg hm, hgu]
      split <;> simp_all
  · intro gu m rest e eb hb he
    simp [verify_emails, hb, verifyEach, he]

/-- C6, witness: the characterization applied to the concrete oracle
`gu0`. -/
theorem c6_witness :
    verify_emails gu0 ["a@x"] = .ok [] ∧
    verify_emails gu0 ["a@x", "bad@x"] = .ok ["bad@x"] ∧
    verify_email gu0 "" = .ok false ∧
    verify_email gu0 "bad@x" = .ok false ∧
    verify_email gu0 "err@x" = .error (.fault 32) ∧
    verify_emails gu0 ["err@x"] = .error (.fault 32) :=
  ⟨c6_verify_emails.1 gu0 ["a@x"] [()] rfl rfl,
   c6_verify_emails.2.1 gu0 ["a@x", "bad@x"] .exn rfl
     (by
       intro m hm
       fin_cases hm
       · exact Or.inr (Or.inr ⟨(), rfl⟩)
       · exact Or.inr (Or.inl rfl)),
   c6_verify_emails.2.2.1 gu0,
   c6_verify_emails.2.2.2.1 gu0 "bad@x" (by decide) rfl,
   c6_verify_emails.2.2.2.2.1 gu0 "err@x" (.fault 32) (by decide) rfl (by decide),
   c6_verify_emails.2.2.2.2.2 gu0 "err@x" [] (.fault 32) (.fault 32) rfl
     (c6_verify_emails.2.2.2.2.1 gu0 "err@x" (.fault 32) (by decide) rfl
       (by decide))⟩

/-!
## Claim C2 — order-independence of the decision vector

Per-package classification: what the resolution loop does for one
package depends only on that package, so the loop without a `break` is
a fold of commutative flag updates.
-/

theorem groupsOf_cons (repo : String → Option Metadata)
    (dev proj : List (String × String)) (p : String) (rest : List String) :
    groupsOf repo dev proj (p :: rest) =
      (match pcGroup (pkgClass repo dev proj p) with
       | none => groupsOf repo dev proj rest
       | some g => insert g (groupsOf repo dev proj rest)) := by
  cases h : pcGroup (pkgClass repo dev proj p) <;>
    simp [groupsOf, List.filterMap_cons, h]

/-- As long as the group count stays within the limit (no `break`) and
no package crashes, the resolution loop completes and its flags are the
or-accumulation of per-package contributions — so they depend only on
which packages occur, not on their order. -/
theorem resolveLoop_noBreak (repo : String → Option Metadata)
    (dev proj : List (String × String)) (login : String) (limit : Nat) :
    ∀ (l : List String) (st : ResState),
      (∀ p ∈ l, pkgClass repo dev proj p ≠ .crash) →
      (st.unique_maints ∪ groupsOf repo dev proj l).card ≤ limit →
      ∃ st', resolveLoop repo dev proj login limit l st = some st' ∧
        st'.new_package =
          (st.new_package ||
            l.any (fun p => pcNew (pkgClass repo dev proj p))) ∧
        st'.existing_package =
          (st.existing_package ||
            l.any (fun p => pcExist (pkgClass repo dev proj p))) ∧
        st'.maint_needed =
          (st.maint_needed ||
            l.any (fun p => pcMneed (pkgClass repo dev proj p))) ∧
        st'.cant_assign =
          (st.cant_assign ||
            l.any (fun p => pcNoGh (pkgClass repo dev proj p))) ∧
        st'.not_self_maintained =
          (st.not_self_maintained ||
            l.any (fun p => pcNotSelf login (pkgClass repo dev proj p))) ∧
        st'.unique_maints = st.unique_maints ∪ groupsOf repo dev proj l
  | [], st => by
    intro _ _
    exact ⟨st, rfl, by simp [groupsOf]⟩
  | p :: rest, st => by
    intro hcr hcard
    have hcr' : ∀ q ∈ rest, pkgClass repo dev proj q ≠ .crash :=
      fun q hq => hcr q (List.mem_cons_of_mem _ hq)
    cases hrp : repo p with
    | none =>
      have hcl : pkgClass repo dev proj p = .newPkg := by
        simp [pkgClass, hrp]
      have hgr := groupsOf_cons repo dev proj p rest
      rw [hcl] at hgr
      simp only [pcGroup] at hgr
      obtain ⟨st', hrun, h1, h2, h3, h4, h5, h6⟩ :=
        resolveLoop_noBreak repo dev proj login limit rest
          { st with
            new_package := true
            pkg_maints :=
              st.pkg_maints ++ [(p, ["@gentoo/proxy-maint (new package)"])] }
          hcr' (by simpa [hgr] using hcard)
      refine ⟨st', ?_, ?_, ?_, ?_, ?_, ?_, ?_⟩ <;>
        simp_all [resolveLoop, hrp, hcl, List.any_cons, pcNew, pcExist,
          pcMneed, pcNoGh, pcNotSelf, Bool.or_assoc]
    | some md =>
      cases hmo : maintainersOf dev proj md with
      | none =>
        exact absurd (by simp [pkgClass, hrp, hmo])
          (hcr p (List.mem_cons_self _ _))
      | some r =>
        cases hemp : r.2.isEmpty with
        | true =>
          have hcl : pkgClass repo dev proj p = .mneeded := by
            simp [pkgClass, hrp, hmo, hemp]
          have hgr := groupsOf_cons repo dev proj p rest
          rw [hcl] at hgr
          simp only [pcGroup] at hgr
          obtain ⟨st', hrun, h1, h2, h3, h4, h5, h6⟩ :=
            resolveLoop_noBreak repo dev proj login limit rest
              { st with
                existing_package := true
                tam := st.tam ∪ r.1.toFinset
                maint_needed := true
                pkg_maints :=
                  st.pkg_maints ++
                    [(p, ["@gentoo/proxy-maint (maintainer needed)"])] }
              hcr' (by simpa [hgr] using hcard)
          refine ⟨st', ?_, ?_, ?_, ?_, ?_, ?_, ?_⟩ <;>
            simp_all [resolveLoop, hrp, hmo, hemp, hcl, List.any_cons, pcNew,
              pcExist, pcMneed, pcNoGh, pcNotSelf, Bool.or_assoc]
        | false =>
          have hcl : pkgClass repo dev proj p = .grp r.1 r.2 := by
            simp [pkgClass, hrp, hmo, hemp]
          have hgr := groupsOf_cons repo dev proj p rest
          rw [hcl] at hgr
          simp only [pcGroup] at hgr
          have hunion :
              insert (sortStrs r.2) st.unique_maints ∪
                  groupsOf repo dev proj rest =
                st.unique_maints ∪ groupsOf repo dev proj (p :: rest) := by
            rw [hgr, Finset.insert_union, Finset.union_insert]
          have hsub :
              insert (sortStrs r.2) st.unique_maints ⊆
                st.unique_maints ∪ groupsOf repo dev proj (p :: rest) := by
            rw [← hunion]
            exact Finset.subset_union_left
          have hnb :
              ¬ limit < (insert (sortStrs r.2) st.unique_maints).card :=
            not_lt.mpr (le_trans (Finset.card_le_card hsub) hcard)
          obtain ⟨st', hrun, h1, h2, h3, h4, h5, h6⟩ :=
            resolveLoop_noBreak repo dev proj login limit rest
              { st with
                existing_package := true
                tam := st.tam ∪ r.1.toFinset
                cant_assign :=
                  st.cant_assign || !(r.2.any (fun x => pyHasChar x '@'))
                pkg_maints := st.pkg_maints ++ [(p, r.2)]
                not_self_maintained :=
                  st.not_self_maintained || !(r.2.contains ("@" ++ login))
                unique_maints := insert (sortStrs r.2) st.unique_maints }
              hcr' (by simpa [hunion] using hcard)
          refine ⟨st', ?_, ?_, ?_, ?_, ?_, ?_, ?_⟩
          · simp only [resolveLoop, hrp, hmo, hemp, if_neg hnb]
            simpa using hrun
          · simpa [hcl, List.any_cons, pcNew, Bool.or_assoc] using h1
          · simp_all [hcl, List.any_cons, pcExist]
          · simpa [hcl, List.any_cons, pcMneed, Bool.or_assoc] using h3
          · simpa [hcl, List.any_cons, pcNoGh, Bool.or_assoc] using h4
          · simpa [hcl, List.any_cons, pcNotSelf, Bool.or_assoc] using h5
          · rw [h6, hunion]

/-- C2, counterexample: the same seven-package set resolved in two
orders yields different decision vectors.  With the new package first
(`ordA`) it is reached before the sixth distinct maintainer group
triggers the `break`, so `new_package = true`; with the new package
last (`ordB`) the `break` fires first and `new_package = false`. -/
theorem c2_counterexample :
    ordA.toFinset = ordB.toFinset ∧
    decisionFlags repo0 [] [] "user" 5 ordA ≠
      decisionFlags repo0 [] [] "user" 5 ordB := by
  exact ⟨by decide, by decide⟩

/-- C2, amended: the decision vector is independent of the resolution
order *provided* the number of distinct maintainer groups stays within
the assignee limit (so the `break` never fires) and no package record
crashes the loop; two enumerations of the same package set then yield
the same flags. -/
theorem c2_order_independent_amended (repo : String → Option Metadata)
    (dev proj : List (String × String)) (login : String) (limit : Nat)
    (l₁ l₂ : List String)
    (hfin : l₁.toFinset = l₂.toFinset)
    (hcr : ∀ p ∈ l₁, pkgClass repo dev proj p ≠ .crash)
    (hcard : (groupsOf repo dev proj l₁).card ≤ limit) :
    decisionFlags repo dev proj login limit l₁ =
      decisionFlags repo dev proj login limit l₂ := by
  have hmem : ∀ p : String, p ∈ l₁ ↔ p ∈ l₂ := fun p => by
    rw [← List.mem_toFinset, hfin, List.mem_toFinset]
  have hcr₂ : ∀ p ∈ l₂, pkgClass repo dev proj p ≠ .crash :=
    fun p hp => hcr p ((hmem p).mpr hp)
  have hg : groupsOf repo dev proj l₁ = groupsOf repo dev proj l₂ := by
    apply Finset.ext
    intro g
    simp only [groupsOf, List.mem_toFinset, List.mem_filterMap]
    exact ⟨fun ⟨a, ha, hfa⟩ => ⟨a, (hmem a).mp ha, hfa⟩,
           fun ⟨a, ha, hfa⟩ => ⟨a, (hmem a).mpr ha, hfa⟩⟩
  have hany : ∀ f : String → Bool, l₁.any f = l₂.any f := by
    intro f
    cases h2 : l₂.any f with
    | true =>
      obtain ⟨x, hx, hfx⟩ := List.any_eq_true.mp h2
      exact List.any_eq_true.mpr ⟨x, (hmem x).mpr hx, hfx⟩
    | false =>
      cases h1 : l₁.any f with
      | false => rfl
      | true =>
        obtain ⟨x, hx, hfx⟩ := List.any_eq_true.mp h1
        have := List.any_eq_true.mpr ⟨x, (hmem x).mp hx, hfx⟩
        rw [h2] at this
        exact this.symm
  obtain ⟨st₁, hrun₁, a1, a2, a3, a4, a5, a6⟩ :=
    resolveLoop_noBreak repo dev proj login limit l₁ initRes hcr
      (by simpa [initRes] using hcard)
  obtain ⟨st₂, hrun₂, b1, b2, b3, b4, b5, b6⟩ :=
    resolveLoop_noBreak repo dev proj login limit l₂ initRes hcr₂
      (by simpa [initRes, ← hg] using hcard)
  simp only [decisionFlags, hrun₁, hrun₂, Option.map_some']
  have hu : st₁.unique_maints = st₂.unique_maints := by
    rw [a6, b6, hg]
  rw [a1, a2, a3, a4, a5, b1, b2, b3, b4, b5, hu,
    hany (fun p => pcNew (pkgClass repo dev proj p)),
    hany (fun p => pcExist (pkgClass repo dev proj p)),
    hany (fun p => pcMneed (pkgClass repo dev proj p)),
    hany (fun p => pcNoGh (pkgClass repo dev proj p)),
    hany (fun p => pcNotSelf login (pkgClass repo dev proj p))]

/-- C2, witness: the amended theorem at two concrete enumerations of a
two-package set. -/
theorem c2_witness :
    decisionFlags repo0 [] [] "user" 5 ["c/p1", "c/p2"] =
      decisionFlags repo0 [] [] "user" 5 ["c/p2", "c/p1"] :=
  c2_order_independent_amended repo0 [] [] "user" 5
    ["c/p1", "c/p2"] ["c/p2", "c/p1"] (by decide) (by decide) (by decide)

/-!
## Claim C9 — idempotence of the engine
-/

/-- The decision block never adds the bypass label. -/
theorem noLimit_not_in_computeAdds :
    ∀ (mn np ca nsm bn sec ib ie ms nc : Bool),
      ("no assignee limit" : String) ∉
        computeAdds mn np ca nsm bn sec ib ie ms nc := by
  decide

/-- One run neither removes nor adds the `no assignee limit` bypass
label, so the second run reads the same limit. -/
theorem noLimit_mem_labelTransition (d : Decision) (l : Finset String) :
    (("no assignee limit" : String) ∈ labelTransition (decisionAdds d) l) ↔
      ("no assignee limit" : String) ∈ l := by
  have hna : ("no assignee limit" : String) ∉ decisionAdds d :=
    noLimit_not_in_computeAdds d.maint_needed d.new_package d.cant_assign
      d.not_self_maintained d.bugsNonempty d.security d.invalid_bug_linked
      d.invalid_email d.missing_signoff d.noci
  have hnr : ¬ removeLabelNames.contains "no assignee limit" = true := by
    decide
  have hnr' : ("no assignee limit" : String) ∉ removeLabelNames := by decide
  simp [labelTransition, removeOldLabels, Finset.mem_union, Finset.mem_filter,
    List.mem_toFinset, hna, hnr, hnr']

/-- The remove-then-add label transition is idempotent. -/
theorem labelTransition_idem (a : List String) (l : Finset String) :
    labelTransition a (labelTransition a l) = labelTransition a l := by
  apply Finset.ext
  intro x
  simp only [labelTransition, removeOldLabels, Finset.mem_union,
    Finset.mem_filter]
  tauto

/-- C9: the engine is deterministic and idempotent — on an unchanged
snapshot, a second run (starting from the label state the first run
produced) posts the identical comment body and leaves the identical
label set. -/
theorem c9_idempotent (s : Snapshot) (l : Finset String) :
    assignTwice s l = assignRun s l := by
  cases hd : assignDecision s (decide (("no assignee limit" : String) ∈ l)) with
  | error e => simp [assignTwice, assignRun, hd]
  | ok d =>
    have hdec :
        decide (("no assignee limit" : String) ∈
            labelTransition (decisionAdds d) l) =
          decide (("no assignee limit" : String) ∈ l) :=
      decide_eq_decide.mpr (noLimit_mem_labelTransition d l)
    simp [assignTwice, assignRun, hd, hdec, labelTransition_idem]

end AssignPR
